import Mathlib

/-!
Shallow embedding of the toy interpreter found in
src/code/interpreter/src/main.rs: lexer, parser, evaluator, scope and
runner.  Rust i64 arithmetic is modelled as Int arithmetic followed by a
two's-complement wrap into i64 range (release-build semantics; debug
builds panic on overflow instead, and the two agree on every result that
fits in i64); the i64-to-usize cast used for string repetition is
modelled exactly, as reduction modulo 2 ^ 64, and the repetition itself
carries the capacity-overflow failure of Rust str::repeat.  Rust panics
(panic!, todo!, expect, unwrap) are modelled as Except.error.  Strings
are scanned as lists of characters, mirroring the char-by-char Rust
scanner.
-/

namespace Interp

/-- Tokens of the language, mirroring `enum Token` in main.rs. -/
inductive Token where
  | Number (n : Int)
  | Plus
  | String (s : String)
  | Star
  | Identifier (s : String)
  | Let
  | Equals
  deriving DecidableEq

/-- Accumulate the decimal value of a digit run; any non-digit character
makes the whole parse fail, mirroring Rust integer parsing. -/
def digitsVal : List Char → Nat → Option Nat
  | [], acc => some acc
  | c :: rest, acc =>
    if c.isDigit then digitsVal rest (acc * 10 + (c.toNat - 48)) else none

/-- Decimal value of a non-empty all-digit character list, none otherwise. -/
def decDigits (l : List Char) : Option Nat :=
  match l with
  | [] => none
  | _ => digitsVal l 0

/-- Largest i64 value, 2 ^ 63 - 1. -/
def i64Max : Nat := 9223372036854775807

/-- Model of Rust `str::parse::<i64>()`: an optional sign followed by at
least one decimal digit, with the value required to fit in i64 range. -/
def parseI64 (s : String) : Option Int :=
  match s.toList with
  | '+' :: rest =>
    (decDigits rest).bind fun n => if n ≤ i64Max then some (Int.ofNat n) else none
  | '-' :: rest =>
    (decDigits rest).bind fun n => if n ≤ i64Max + 1 then some (-(Int.ofNat n)) else none
  | l =>
    (decDigits l).bind fun n => if n ≤ i64Max then some (Int.ofNat n) else none

/-- Model of `Lexer::process_token`: flush the pending buffer.  An empty
buffer emits nothing; otherwise the buffer becomes a Number token if it
parses as an i64, the Let keyword if it equals "let", and an Identifier
token otherwise. -/
def flushBuffer (buffer : String) (tokens : List Token) : List Token :=
  if buffer.isEmpty then tokens
  else
    match parseI64 buffer with
    | some n => tokens ++ [.Number n]
    | none =>
      if buffer = "let" then tokens ++ [.Let]
      else tokens ++ [.Identifier buffer]

/-- Model of the scanning loop of `Lexer::tokens`.  The second argument is
`none` in normal mode and `some acc` while inside a double-quoted string
literal (Rust uses a nested while-loop for that mode; here it is a mode
flag so the recursion stays structural).  The buffer and emitted-token
accumulator mirror the `buffer` and `tokens` fields of the Rust struct.
At end of input an open string literal is still emitted as a String token
(the nested loop simply ends), and then the buffer is flushed once. -/
def lexChars : List Char → Option (List Char) → String → List Token → List Token
  | [], none, buffer, tokens => flushBuffer buffer tokens
  | [], some acc, buffer, tokens =>
    flushBuffer buffer (tokens ++ [.String (String.mk acc)])
  | c :: rest, some acc, buffer, tokens =>
    if c = '"' then lexChars rest none buffer (tokens ++ [.String (String.mk acc)])
    else lexChars rest (some (acc ++ [c])) buffer tokens
  | c :: rest, none, buffer, tokens =>
    if c = ' ' then lexChars rest none "" (flushBuffer buffer tokens)
    else if c.isDigit then lexChars rest none (buffer.push c) tokens
    else if c = '+' then lexChars rest none buffer (tokens ++ [.Plus])
    else if c = '"' then lexChars rest (some []) buffer tokens
    else if c = '*' then lexChars rest none buffer (tokens ++ [.Star])
    else if c = '=' then lexChars rest none buffer (tokens ++ [.Equals])
    else lexChars rest none (buffer.push c) tokens

/-- Model of `Lexer::tokens` on one line of source text. -/
def lex (line : List Char) : List Token := lexChars line none "" []

/-- Operations, mirroring `enum Operation`. -/
inductive Operation where
  | Addition
  | Multiplication
  deriving DecidableEq

/-- Runtime values, mirroring `enum Value`. -/
inductive Value where
  | Number (n : Int)
  | String (s : String)
  deriving DecidableEq

/-- Model of Rust `str::repeat`: the string concatenated n times. -/
def repeatString (s : String) : Nat → String
  | 0 => ""
  | n + 1 => s ++ repeatString s n

/-- Result type of evaluation: a value, or the message of a Rust panic. -/
abbrev EvalResult := Except String Value

/-- Model of the `a as usize` cast applied to an i64 on a 64-bit target:
reinterpretation of the two's-complement bits, i.e. reduction mod 2 ^ 64. -/
def i64AsUsize (a : Int) : Nat := (a % 18446744073709551616).toNat

/-- Two's-complement wrap of an integer into i64 range: the semantics of
Rust i64 addition and multiplication in release builds.  Debug builds
panic on overflow instead; both behaviors agree on every result that fits
in i64, and neither produces the mathematical result when it does not. -/
def wrapI64 (a : Int) : Int :=
  (a + 9223372036854775808) % 18446744073709551616 - 9223372036854775808

/-- Model of Rust `str::repeat` including its failure: the capacity of the
result is the byte length times the count, the checked multiplication
panics with capacity overflow past usize range, and Vec::with_capacity
documents a panic when the capacity exceeds isize::MAX bytes - so any
result over 2 ^ 63 - 1 bytes is the capacity-overflow failure, and below
that bound the string is concatenated count times.  (Allocation failure
for feasible capacities is a machine resource matter outside the model.) -/
def strRepeat (s : String) (n : Nat) : Except String String :=
  if s.utf8ByteSize * n ≤ 9223372036854775807 then .ok (repeatString s n)
  else .error "capacity overflow"

/-- Model of `impl Add for Value`.  The i64 sum wraps; the final arm of
the Rust match is a `todo!` panic, and the only operand pair reaching it
is String + String. -/
def Value.add : Value → Value → EvalResult
  | .Number a, .Number b => .ok (.Number (wrapI64 (a + b)))
  | .Number a, .String s => .ok (.String (toString a ++ s))
  | .String s, .Number a => .ok (.String (s ++ toString a))
  | .String _, .String _ =>
    .error "syntax error, + between these values not supported"

/-- Model of `impl Mul for Value`.  The i64 product wraps; the repetition
count is the i64 operand cast with `as usize` and the repetition carries
the capacity-overflow failure of str::repeat; the final arm of the Rust
match is a `todo!` panic, reached only for String * String. -/
def Value.mul : Value → Value → EvalResult
  | .Number a, .Number b => .ok (.Number (wrapI64 (a * b)))
  | .Number a, .String s => (strRepeat s (i64AsUsize a)).map Value.String
  | .String s, .Number a => (strRepeat s (i64AsUsize a)).map Value.String
  | .String _, .String _ =>
    .error "syntax error, * between these values not supported"

/-- Expression terms, mirroring `enum Term`. -/
inductive Term where
  | Value (v : Value)
  | Variable (name : String)
  deriving DecidableEq

/-- Expressions, mirroring `enum Expression`. -/
inductive Expression where
  | Binary (left : Term) (op : Operation) (right : Term)
  | Term (t : Term)
  deriving DecidableEq

/-- Statements, mirroring `enum Statement`. -/
inductive Statement where
  | Assignment (name : String) (value : Expression)
  | Expression (e : Expression)
  deriving DecidableEq

/-- The variable environment, mirroring `struct Scope`.  The Rust HashMap
is modelled as an association list whose `set` prepends (newest binding
first), which is observationally the overwriting insert of a HashMap
through `Scope.get`. -/
structure Scope where
  vars : List (String × Value)
  deriving DecidableEq

/-- Model of `Scope::new`. -/
def Scope.new : Scope := ⟨[]⟩

/-- First binding for a name in an association list. -/
def lookupVar : List (String × Value) → String → Option Value
  | [], _ => none
  | (k, v) :: rest, name => if k = name then some v else lookupVar rest name

/-- Model of `Scope::get`. -/
def Scope.get (s : Scope) (name : String) : Option Value :=
  lookupVar s.vars name

/-- Model of `Scope::set` (HashMap insert, overwriting any prior binding). -/
def Scope.set (s : Scope) (name : String) (v : Value) : Scope :=
  ⟨(name, v) :: s.vars⟩

/-- Model of `Expression::term`: consume one token and turn it into a Term,
or fail with a syntax error. -/
def parseTerm : List Token → Except String (Term × List Token)
  | [] => .error "expected a token"
  | .Number n :: rest => .ok (.Value (.Number n), rest)
  | .String s :: rest => .ok (.Value (.String s), rest)
  | .Identifier name :: rest => .ok (.Variable name, rest)
  | _ :: _ => .error "syntax error, expected term"

/-- Model of `Expression::parse`: one term, optionally followed by an
operator token and a second term.  Tokens beyond that are returned
unconsumed (the Rust iterator simply retains them).  The Rust code first
converts the operator token and then parses the right term once; the two
operator branches here are that same computation spelled per operator. -/
def Expression.parse (tokens : List Token) : Except String (Expression × List Token) :=
  match parseTerm tokens with
  | .error e => .error e
  | .ok (left, rest) =>
    match rest with
    | [] => .ok (.Term left, [])
    | opTok :: rest2 =>
      match opTok with
      | .Plus =>
        match parseTerm rest2 with
        | .error e => .error e
        | .ok (right, rest3) => .ok (.Binary left .Addition right, rest3)
      | .Star =>
        match parseTerm rest2 with
        | .error e => .error e
        | .ok (right, rest3) => .ok (.Binary left .Multiplication right, rest3)
      | _ => .error "syntax error, expected operation"

/-- Model of `Statement::parse` together with `Statement::assignment`: peek
the first token; a Let keyword starts an assignment (identifier, equals
sign, expression), anything else parses as a bare expression statement. -/
def Statement.parse (tokens : List Token) : Except String (Statement × List Token) :=
  match tokens with
  | [] => .error "empty token stream"
  | .Let :: rest =>
    match rest with
    | .Identifier name :: .Equals :: rest3 =>
      match Expression.parse rest3 with
      | .error e => .error e
      | .ok (value, rest4) => .ok (.Assignment name value, rest4)
    | .Identifier _ :: _ => .error "syntax error, expected equals sign"
    | _ => .error "syntax error, expected identifier"
  | _ =>
    match Expression.parse tokens with
    | .error e => .error e
    | .ok (e, rest) => .ok (.Expression e, rest)

/-- Model of `Term::evaluate`: a literal clones its value; a variable is
looked up in the scope and a missing binding is the runtime error that
names the variable. -/
def Term.evaluate : Term → Scope → EvalResult
  | .Value v, _ => .ok v
  | .Variable name, scope =>
    match Scope.get scope name with
    | some v => .ok v
    | none => .error ("runtime error: variable " ++ name ++ " not found")

/-- Model of `Expression::evaluate`: a bare term delegates to the term; a
binary expression evaluates left then right and applies the operator. -/
def Expression.evaluate : Expression → Scope → EvalResult
  | .Term t, scope => Term.evaluate t scope
  | .Binary left op right, scope =>
    match Term.evaluate left scope with
    | .error e => .error e
    | .ok lv =>
      match Term.evaluate right scope with
      | .error e => .error e
      | .ok rv =>
        match op with
        | .Addition => Value.add lv rv
        | .Multiplication => Value.mul lv rv

/-- Model of `Statement::evaluate`: an assignment stores the evaluated
value in the scope and produces no value; an expression statement produces
its value and leaves the scope as it was (the Rust expression evaluator
only holds a shared borrow of the scope). -/
def Statement.evaluate : Statement → Scope → Except String (Option Value × Scope)
  | .Assignment name value, scope =>
    match Expression.evaluate value scope with
    | .error e => .error e
    | .ok v => .ok (none, Scope.set scope name v)
  | .Expression e, scope =>
    match Expression.evaluate e scope with
    | .error e => .error e
    | .ok v => .ok (some v, scope)

/-- Model of Rust `str::trim` for this scanner: drop whitespace characters
from both ends of the line. -/
def trimChars (l : List Char) : List Char :=
  ((l.dropWhile Char.isWhitespace).reverse.dropWhile Char.isWhitespace).reverse

/-- Model of Rust `str::lines`: split on newline characters.  (Rust also
drops a trailing carriage return and yields no final empty line; both
differences are invisible to the runner, which trims and skips blank
lines.) -/
def splitLines : List Char → List (List Char)
  | [] => [[]]
  | c :: rest =>
    if c = '\n' then [] :: splitLines rest
    else
      match splitLines rest with
      | [] => [[c]]
      | first :: others => (c :: first) :: others

/-- Model of the line loop of `eval` in main.rs, also returning the final
scope: each non-blank trimmed line is lexed, parsed into one statement and
evaluated; the running value is overwritten by every evaluated statement. -/
def evalLines : List (List Char) → Scope → Option Value → Except String (Option Value × Scope)
  | [], scope, value => .ok (value, scope)
  | line :: rest, scope, value =>
    let l := trimChars line
    if l.isEmpty then evalLines rest scope value
    else
      match Statement.parse (lex l) with
      | .error e => .error e
      | .ok (stmt, _) =>
        match Statement.evaluate stmt scope with
        | .error e => .error e
        | .ok (v, scope2) => evalLines rest scope2 v

/-- Model of `eval` in main.rs: run every line of the source against one
fresh scope and return the final value. -/
def eval (source : String) : Except String (Option Value) :=
  match evalLines (splitLines source.toList) Scope.new none with
  | .error e => .error e
  | .ok (v, _) => .ok v

/-- Splitting the line list anywhere splits the run: the second half starts
from the value and the scope the first half produced. -/
theorem evalLines_append (xs ys : List (List Char)) (scope : Scope) (acc : Option Value) :
    evalLines (xs ++ ys) scope acc =
      match evalLines xs scope acc with
      | .error e => .error e
      | .ok (v, s) => evalLines ys s v := by
  induction xs generalizing scope acc with
  | nil => simp [evalLines]
  | cons line rest ih =>
    simp only [List.cons_append, evalLines]
    by_cases hb : (trimChars line).isEmpty
    · simp only [hb, if_true]
      exact ih scope acc
    · simp only [hb, if_false, Bool.false_eq_true]
      cases hp : Statement.parse (lex (trimChars line)) with
      | error e => simp [hp]
      | ok p =>
        cases hs : Statement.evaluate p.1 scope with
        | error e => simp [hp, hs]
        | ok q =>
          obtain ⟨v1, s1⟩ := q
          simp only [hp, hs]
          exact ih s1 v1

/-- Inside a string literal with no closing quote ahead, the scanner
consumes every remaining character of the line into the literal. -/
theorem lexChars_open_string (rest : List Char) :
    ∀ (acc : List Char) (buffer : String) (tokens : List Token), '"' ∉ rest →
    lexChars rest (some acc) buffer tokens =
      flushBuffer buffer (tokens ++ [.String (String.mk (acc ++ rest))]) := by
  induction rest with
  | nil =>
    intro acc buffer tokens h
    simp [lexChars]
  | cons c cs ih =>
    intro acc buffer tokens h
    have hc : c ≠ '"' := by
      intro hh
      exact h (hh ▸ List.mem_cons_self c cs)
    have hcs : '"' ∉ cs := fun hm => h (List.mem_cons_of_mem c hm)
    simp only [lexChars, hc, if_false]
    rw [ih (acc ++ [c]) buffer tokens hcs]
    simp

/-- Claim C1, counterexample: in the program whose first line produces
Number 3 and whose last line is an assignment, the run result is no value;
the prior expression-statement value does not remain the result. -/
theorem assignment_last_resets_result :
    eval "1 + 2\nlet x = 3" = .ok none ∧
    eval "1 + 2\nlet x = 3" ≠ .ok (some (Value.Number 3)) :=
  ⟨rfl, fun h => Option.noConfusion (Except.ok.inj h)⟩

/-- Claim C1, amended: the run result is the Option Value produced by the
most recently evaluated statement - some value for an expression statement,
no value for an assignment, even when an earlier expression-statement had
produced a value; when no line holds a statement the initial no-value
remains. -/
theorem last_statement_determines_result (ls : List (List Char)) (l : List Char)
    (scope s0 s1 : Scope) (acc v0 v : Option Value) (stmt : Statement) (rest : List Token)
    (hbl : (trimChars l).isEmpty = false)
    (h0 : evalLines ls scope acc = .ok (v0, s0))
    (hp : Statement.parse (lex (trimChars l)) = .ok (stmt, rest))
    (he : Statement.evaluate stmt s0 = .ok (v, s1)) :
    evalLines (ls ++ [l]) scope acc = .ok (v, s1) := by
  rw [evalLines_append, h0]
  simp [evalLines, hbl, hp, he]

/-- Witness for C1 amended: appending the assignment line to the one-line
program 1 + 2 makes the whole run produce no value, although the first
line produced Number 3. -/
theorem last_statement_determines_result_witness :
    evalLines (["1 + 2".toList] ++ ["let x = 3".toList]) Scope.new none =
      .ok (none, ⟨[("x", Value.Number 3)]⟩) :=
  last_statement_determines_result ["1 + 2".toList] "let x = 3".toList
    Scope.new Scope.new ⟨[("x", Value.Number 3)]⟩ none (some (Value.Number 3)) none
    (Statement.Assignment "x" (.Term (.Value (.Number 3)))) [] rfl rfl rfl rfl

/-- Claim C2, counterexample: at the i64 operands 9223372036854775807 and
1 the program does not produce the mathematical sum 9223372036854775808 -
the sum wraps to the minimal i64 (a debug build panics instead; under
neither behavior does the Number of the mathematical sum appear). -/
theorem add_overflow_not_mathematical_sum :
    Value.add (.Number 9223372036854775807) (.Number 1) =
      .ok (.Number (-9223372036854775808)) ∧
    Value.add (.Number 9223372036854775807) (.Number 1) ≠
      .ok (.Number 9223372036854775808) := by
  refine ⟨rfl, fun h => ?_⟩
  have h2 : (Except.ok (Value.Number (wrapI64 (9223372036854775807 + 1))) : EvalResult) =
      .ok (.Number 9223372036854775808) := h
  exact absurd (Value.Number.inj (Except.ok.inj h2)) (by decide)

/-- Claim C2, amended: Addition of two Numbers gives the Number of the
two's-complement i64 wrap of the sum, which equals the mathematical sum
whenever that sum fits in i64 range; a Number and a String in either
operand order give the decimal rendering of the number concatenated with
the string in operand order; Addition of two Strings is a fatal runtime
error. -/
theorem add_coercion_table :
    (∀ a b : Int, Value.add (.Number a) (.Number b) = .ok (.Number (wrapI64 (a + b)))) ∧
    (∀ c : Int, -9223372036854775808 ≤ c → c ≤ 9223372036854775807 → wrapI64 c = c) ∧
    (∀ (a : Int) (s : String),
      Value.add (.Number a) (.String s) = .ok (.String (toString a ++ s))) ∧
    (∀ (a : Int) (s : String),
      Value.add (.String s) (.Number a) = .ok (.String (s ++ toString a))) ∧
    (∀ s t : String, Value.add (.String s) (.String t) =
      .error "syntax error, + between these values not supported") := by
  refine ⟨fun _ _ => rfl, ?_, fun _ _ => rfl, fun _ _ => rfl, fun _ _ => rfl⟩
  intro c h1 h2
  unfold wrapI64
  omega

/-- Witness for C2 amended: the sum of 2 and 3 fits in i64, so the program
produces the Number of the mathematical sum 5. -/
theorem add_coercion_table_witness :
    Value.add (.Number 2) (.Number 3) = .ok (.Number (wrapI64 (2 + 3))) ∧
    wrapI64 5 = 5 :=
  ⟨add_coercion_table.1 2 3, add_coercion_table.2.1 5 (by decide) (by decide)⟩

/-- Claim C3, counterexample: at the i64 operands 4611686018427387904 and
4 the Number of the mathematical product 18446744073709551616 does not
appear - the product wraps to 0 - and the negative multiplier -1 applied
to the two-byte string ab is the capacity-overflow panic of str::repeat,
not the string repeated once. -/
theorem mul_overflow_and_negative_repeat :
    Value.mul (.Number 4611686018427387904) (.Number 4) = .ok (.Number 0) ∧
    Value.mul (.Number 4611686018427387904) (.Number 4) ≠
      .ok (.Number 18446744073709551616) ∧
    Value.mul (.Number (-1)) (.String "ab") = .error "capacity overflow" ∧
    Value.mul (.Number (-1)) (.String "ab") ≠ .ok (.String "ab") := by
  refine ⟨rfl, fun h => ?_, rfl, fun h => ?_⟩
  · have h2 : (Except.ok (Value.Number (wrapI64 (4611686018427387904 * 4))) : EvalResult) =
        .ok (.Number 18446744073709551616) := h
    exact absurd (Value.Number.inj (Except.ok.inj h2)) (by decide)
  · have h2 : (Except.error "capacity overflow" : EvalResult) = .ok (.String "ab") := h
    exact Except.noConfusion h2

/-- Claim C3, amended: Multiplication of two Numbers gives the Number of
the two's-complement i64 wrap of the product, equal to the mathematical
product whenever it fits in i64 range; a Number and a String in either
operand order repeat the string, the count being the unsigned mod-2^64
interpretation of the i64 operand - its absolute value for every
non-negative i64 - and the repetition succeeds exactly when the resulting
byte length stays within the isize maximum, so every negative multiplier
of a non-empty string is a capacity-overflow panic; Multiplication of two
Strings is a fatal runtime error. -/
theorem mul_coercion_table :
    (∀ a b : Int, Value.mul (.Number a) (.Number b) = .ok (.Number (wrapI64 (a * b)))) ∧
    (∀ (a : Int) (s : String),
      Value.mul (.Number a) (.String s) = (strRepeat s (i64AsUsize a)).map Value.String ∧
      Value.mul (.String s) (.Number a) = (strRepeat s (i64AsUsize a)).map Value.String) ∧
    (∀ a : Int, 0 ≤ a → a ≤ 9223372036854775807 → i64AsUsize a = a.natAbs) ∧
    (∀ (s : String) (n : Nat), s.utf8ByteSize * n ≤ 9223372036854775807 →
      strRepeat s n = .ok (repeatString s n)) ∧
    (∀ (a : Int) (s : String), -9223372036854775808 ≤ a → a < 0 → 1 ≤ s.utf8ByteSize →
      strRepeat s (i64AsUsize a) = .error "capacity overflow") ∧
    (∀ s t : String, Value.mul (.String s) (.String t) =
      .error "syntax error, * between these values not supported") := by
  refine ⟨fun _ _ => rfl, fun _ _ => ⟨rfl, rfl⟩, ?_, ?_, ?_, fun _ _ => rfl⟩
  · intro a h1 h2
    unfold i64AsUsize
    omega
  · intro s n h
    unfold strRepeat
    rw [if_pos h]
  · intro a s h1 h2 h3
    have hc : 9223372036854775808 ≤ i64AsUsize a := by
      unfold i64AsUsize
      omega
    have hm : 9223372036854775808 ≤ s.utf8ByteSize * i64AsUsize a :=
      calc 9223372036854775808 ≤ i64AsUsize a := hc
        _ = 1 * i64AsUsize a := (Nat.one_mul _).symm
        _ ≤ s.utf8ByteSize * i64AsUsize a := Nat.mul_le_mul_right _ h3
    unfold strRepeat
    rw [if_neg (by omega)]

/-- Witness for C3 amended: the count for 3 is its absolute value, three
copies of the two-byte string ab fit comfortably so the repetition
succeeds, and the negative multiplier -1 on ab is the capacity-overflow
panic. -/
theorem mul_coercion_table_witness :
    i64AsUsize 3 = Int.natAbs 3 ∧
    strRepeat "ab" 3 = .ok (repeatString "ab" 3) ∧
    strRepeat "ab" (i64AsUsize (-1)) = .error "capacity overflow" :=
  ⟨mul_coercion_table.2.2.1 3 (by decide) (by decide),
   mul_coercion_table.2.2.2.1 "ab" 3 (by decide),
   mul_coercion_table.2.2.2.2.1 (-1) "ab" (by decide) (by decide) (by decide)⟩

/-- Claim C4, counterexample: the percent character belongs to none of the
recognized lexical classes, yet the lexer yields a token list for it and a
whole run containing it completes successfully instead of aborting. -/
theorem unknown_char_no_lexical_error :
    lex "%".toList = [Token.Identifier "%"] ∧
    eval "let % = 5\n%" = .ok (some (Value.Number 5)) := ⟨by decide, rfl⟩

/-- Claim C4, amended: a character outside every recognized class (space,
digit, plus, double quote, star, equals) is appended to the pending buffer
exactly like a word character; the lexer never fails. -/
theorem unknown_char_buffered (c : Char) (rest : List Char) (buffer : String)
    (tokens : List Token) (h1 : c ≠ ' ') (h2 : c.isDigit = false) (h3 : c ≠ '+')
    (h4 : c ≠ '"') (h5 : c ≠ '*') (h6 : c ≠ '=') :
    lexChars (c :: rest) none buffer tokens =
      lexChars rest none (buffer.push c) tokens := by
  simp [lexChars, h1, h2, h3, h4, h5, h6]

/-- Witness for C4 amended: the percent character is buffered, not
rejected. -/
theorem unknown_char_buffered_witness :
    lexChars ['%'] none "" [] = lexChars [] none ("".push '%') [] :=
  unknown_char_buffered '%' [] "" [] (by decide) (by decide) (by decide)
    (by decide) (by decide) (by decide)

/-- Claim C5, counterexample: the prefix consisting of the single Number
token parses as a complete one-term Expression, yet with one trailing
Number token present the parser raises a syntax error instead of ignoring
the trailing input. -/
theorem trailing_token_after_term_errors :
    Expression.parse [Token.Number 1] = .ok (.Term (.Value (.Number 1)), []) ∧
    Expression.parse [Token.Number 1, Token.Number 2] =
      .error "syntax error, expected operation" := ⟨rfl, rfl⟩

/-- Claim C5, amended: every token after a full binary expression - term,
operator, term - is left unconsumed and silently ignored; only after a
lone term must the next token, when one is present, be an operator. -/
theorem trailing_tokens_after_binary_ignored (t1 opTok t2 : Token) (l r : Term)
    (op : Operation) (rest : List Token)
    (h1 : parseTerm (t1 :: opTok :: t2 :: rest) = .ok (l, opTok :: t2 :: rest))
    (h2 : parseTerm (t2 :: rest) = .ok (r, rest))
    (hop : opTok = .Plus ∧ op = .Addition ∨ opTok = .Star ∧ op = .Multiplication) :
    Expression.parse (t1 :: opTok :: t2 :: rest) = .ok (.Binary l op r, rest) := by
  unfold Expression.parse
  rw [h1]
  rcases hop with ⟨ho, hop⟩ | ⟨ho, hop⟩ <;> subst ho hop <;> simp [h2]

/-- Witness for C5 amended: a trailing Number token after 1 + 2 is
returned unconsumed. -/
theorem trailing_tokens_after_binary_ignored_witness :
    Expression.parse [Token.Number 1, Token.Plus, Token.Number 2, Token.Number 99] =
      .ok (.Binary (.Value (.Number 1)) .Addition (.Value (.Number 2)), [Token.Number 99]) :=
  trailing_tokens_after_binary_ignored (Token.Number 1) Token.Plus (Token.Number 2)
    (.Value (.Number 1)) (.Value (.Number 2)) .Addition [Token.Number 99]
    rfl rfl (Or.inl ⟨rfl, rfl⟩)

/-- Claim C6: flushing a non-empty buffer emits exactly one token - a
Number when the buffer parses as an i64, else the Let keyword when the
buffer is the reserved word, else an Identifier carrying the buffer text;
an empty buffer emits nothing; the space branch of the scanner continues
with a cleared buffer and the flush runs once more at end of input. -/
theorem buffer_flush_rule :
    (∀ tokens : List Token, flushBuffer "" tokens = tokens) ∧
    (∀ (buffer : String) (tokens : List Token) (n : Int),
      buffer.isEmpty = false → parseI64 buffer = some n →
      flushBuffer buffer tokens = tokens ++ [.Number n]) ∧
    (∀ (buffer : String) (tokens : List Token),
      buffer.isEmpty = false → parseI64 buffer = none → buffer = "let" →
      flushBuffer buffer tokens = tokens ++ [.Let]) ∧
    (∀ (buffer : String) (tokens : List Token),
      buffer.isEmpty = false → parseI64 buffer = none → buffer ≠ "let" →
      flushBuffer buffer tokens = tokens ++ [.Identifier buffer]) ∧
    (∀ (rest : List Char) (buffer : String) (tokens : List Token),
      lexChars (' ' :: rest) none buffer tokens =
        lexChars rest none "" (flushBuffer buffer tokens)) ∧
    (∀ (buffer : String) (tokens : List Token),
      lexChars [] none buffer tokens = flushBuffer buffer tokens) := by
  refine ⟨fun tokens => rfl, ?_, ?_, ?_, fun _ _ _ => rfl, fun _ _ => rfl⟩
  · intro buffer tokens n h1 h2
    simp [flushBuffer, h1, h2]
  · intro buffer tokens h1 h2 h3
    subst h3
    simp [flushBuffer, h1, h2]
  · intro buffer tokens h1 h2 h3
    simp [flushBuffer, h1, h2, h3]

/-- Witness for C6: the buffer 12 flushes to the single Number token 12,
the buffer let flushes to the Let token, and the buffer abc flushes to an
Identifier token. -/
theorem buffer_flush_rule_witness :
    flushBuffer "12" [] = [Token.Number 12] ∧
    flushBuffer "let" [] = [Token.Let] ∧
    flushBuffer "abc" [] = [Token.Identifier "abc"] :=
  ⟨buffer_flush_rule.2.1 "12" [] 12 (by decide) (by decide),
   buffer_flush_rule.2.2.1 "let" [] (by decide) (by decide) rfl,
   buffer_flush_rule.2.2.2.1 "abc" [] (by decide) (by decide) (by decide)⟩

/-- Claim C7: evaluating a Variable term whose name is unbound in the
scope fails with a runtime error that names the missing variable, and the
program 21 + x with x never bound fails with a runtime error naming x. -/
theorem unbound_variable_error :
    (∀ (scope : Scope) (name : String), Scope.get scope name = none →
      Term.evaluate (.Variable name) scope =
        .error ("runtime error: variable " ++ name ++ " not found")) ∧
    eval "21 + x" = .error "runtime error: variable x not found" := by
  refine ⟨?_, rfl⟩
  intro scope name h
  simp [Term.evaluate, h]

/-- Witness for C7: the empty scope binds nothing, so x is reported
missing by name. -/
theorem unbound_variable_error_witness :
    Term.evaluate (.Variable "x") Scope.new =
      .error "runtime error: variable x not found" :=
  unbound_variable_error.1 Scope.new "x" rfl

/-- Claim C8: evaluating an expression statement leaves the scope exactly
as it was, and evaluating an assignment produces no value and changes
precisely the binding of the assigned name, overwriting any prior binding
for it. -/
theorem scope_mutation_frame :
    (∀ (e : Expression) (scope : Scope) (v : Option Value) (s2 : Scope),
      Statement.evaluate (.Expression e) scope = .ok (v, s2) → s2 = scope) ∧
    (∀ (name : String) (e : Expression) (scope : Scope) (v : Option Value) (s2 : Scope),
      Statement.evaluate (.Assignment name e) scope = .ok (v, s2) →
      v = none ∧
      (∃ w, Expression.evaluate e scope = .ok w ∧ Scope.get s2 name = some w) ∧
      (∀ m, m ≠ name → Scope.get s2 m = Scope.get scope m)) := by
  constructor
  · intro e scope v s2 h
    cases he : Expression.evaluate e scope with
    | error msg => simp [Statement.evaluate, he] at h
    | ok w =>
      simp only [Statement.evaluate, he, Except.ok.injEq, Prod.mk.injEq] at h
      exact h.2.symm
  · intro name e scope v s2 h
    cases he : Expression.evaluate e scope with
    | error msg => simp [Statement.evaluate, he] at h
    | ok w =>
      simp only [Statement.evaluate, he, Except.ok.injEq, Prod.mk.injEq] at h
      obtain ⟨hv, hs⟩ := h
      refine ⟨hv.symm, ⟨w, rfl, ?_⟩, ?_⟩
      · rw [← hs]
        simp [Scope.get, Scope.set, lookupVar]
      · intro m hm
        rw [← hs]
        simp only [Scope.get, Scope.set, lookupVar]
        rw [if_neg (Ne.symm hm)]

/-- Witness for C8: assigning 5 to x in the empty scope produces no value
and stores exactly that one binding. -/
theorem scope_mutation_frame_witness :
    (none : Option Value) = none ∧
    (∃ w, Expression.evaluate (.Term (.Value (.Number 5))) Scope.new = .ok w ∧
      Scope.get ⟨[("x", Value.Number 5)]⟩ "x" = some w) ∧
    (∀ m, m ≠ "x" →
      Scope.get ⟨[("x", Value.Number 5)]⟩ m = Scope.get Scope.new m) :=
  scope_mutation_frame.2 "x" (.Term (.Value (.Number 5))) Scope.new none
    ⟨[("x", Value.Number 5)]⟩ rfl

/-- Claim C9: the three-line program binds x to 6 and y to 11 and
produces Number 17 through the full pipeline, and a binding written by set
is what a later get resolves, the newest assignment winning over any prior
binding of the name. -/
theorem multi_line_program_result :
    eval "let x = 3 * 2\nlet y = x + 5\nx + y" = .ok (some (.Number 17)) ∧
    (∀ (scope : Scope) (name : String) (v : Value),
      Scope.get (Scope.set scope name v) name = some v) := by
  refine ⟨rfl, ?_⟩
  intro scope name v
  simp [Scope.get, Scope.set, lookupVar]

/-- Claim C10: a line whose opening double quote is never closed does not
make the lexer fail - every remaining character is consumed verbatim and a
String token holding that text is still emitted - and lexing the line
consisting of a quote and abc yields exactly the String token abc. -/
theorem unterminated_string_no_error :
    (∀ (rest : List Char) (buffer : String) (tokens : List Token),
      '"' ∉ rest →
      lexChars ('"' :: rest) none buffer tokens =
        flushBuffer buffer (tokens ++ [.String (String.mk rest)])) ∧
    lex "\"abc".toList = [Token.String "abc"] := by
  refine ⟨?_, by decide⟩
  intro rest buffer tokens h
  have h1 : lexChars ('"' :: rest) none buffer tokens =
      lexChars rest (some []) buffer tokens := rfl
  rw [h1, lexChars_open_string rest [] buffer tokens h]
  simp

/-- Witness for C10: a quote followed by one character lexes to the String
token holding that character. -/
theorem unterminated_string_no_error_witness :
    lexChars ('"' :: ['a']) none "" [] =
      flushBuffer "" ([] ++ [.String (String.mk ['a'])]) :=
  unterminated_string_no_error.1 ['a'] "" [] (by decide)

end Interp
